import Mathlib

/-!
Shallow embedding of the Sports-Steve decision core
(src/risk_manager.py, src/budget.py, src/circadian.py,
src/optimization/parlay_builder.py).

Python floats are modelled as exact rationals; the Python builtin
round (round-half-to-even) is modelled by `roundHalfEven` below.
Logging calls, uuid generation and wall-clock timestamps are effects
with no bearing on the verified properties and are elided; every other
branch of the translated functions follows the source line by line.
-/

namespace SportsSteve

/-- Round-half-to-even on rationals, mirroring the Python builtin round
applied to a value with an exact decimal representation. -/
def roundHalfEven (x : ℚ) : ℤ :=
  let f := ⌊x⌋
  let r := x - (f : ℚ)
  if r < 1/2 then f
  else if 1/2 < r then f + 1
  else if f % 2 = 0 then f else f + 1

/-- Model of Python round(x, n): scale, round half to even, unscale. -/
def roundTo (n : ℕ) (x : ℚ) : ℚ :=
  (roundHalfEven (x * (10 : ℚ) ^ n) : ℚ) / (10 : ℚ) ^ n

/-- Model of the Python str.upper() used on the ASCII sport and category
codes: uppercase every character. -/
def pyUpper (s : String) : String := ⟨s.data.map Char.toUpper⟩

/-! ### Circadian model (src/circadian.py) -/

/-- Sports with significant circadian sensitivity
(constant CIRCADIAN SENSITIVE SPORTS in the source). -/
def circadianSensitiveSports : List String := ["NBA", "NHL", "NFL", "NCAAMB"]

/-- GameContext from src/circadian.py. The datetime field is read only
through its hour and minute attributes, modelled here directly. -/
structure GameContext where
  gameHourUtc : ℕ
  gameMinuteUtc : ℕ
  homeTzOffset : ℚ := -5
  awayTzOffset : ℚ := -5
  sport : String := "NBA"
  awayBackToBack : Bool := false
  homeBackToBack : Bool := false

/-- Python float modulo for a positive modulus (sign of divisor). -/
def qmod (x m : ℚ) : ℚ := x - m * ⌊x / m⌋

/-- GameContext.home_local_hour: int((utc_hour + minute/60 + offset) mod 24).
The Python int() truncation equals the floor here because the operand of
int() is nonnegative (a mod 24 with positive modulus). -/
def GameContext.homeLocalHour (c : GameContext) : ℤ :=
  ⌊qmod ((c.gameHourUtc : ℚ) + (c.gameMinuteUtc : ℚ) / 60 + c.homeTzOffset) 24⌋

/-- GameContext.away_travel_shift. -/
def GameContext.awayTravelShift (c : GameContext) : ℚ :=
  c.homeTzOffset - c.awayTzOffset

/-- CircadianAdjustment from src/circadian.py (reason strings keep the
fixed text of the source with numeric formatting elided). -/
structure CircadianAdjustment where
  factor : ℚ := 0
  reasons : List String := []

/-- CircadianAdjustment.apply: raw_edge scaled by (1 + factor), floored at 0. -/
def CircadianAdjustment.apply (a : CircadianAdjustment) (rawEdge : ℚ) : ℚ :=
  max 0 (rawEdge * (1 + a.factor))

/-- CircadianFactoring configuration (constructor defaults from the source). -/
structure CircadianFactoring where
  lateNightPenalty : ℚ := 5/100
  backToBackPenalty : ℚ := 8/100
  timezoneShiftPenalty : ℚ := 4/100
  optimalBonus : ℚ := 2/100

/-- CircadianFactoring.compute from src/circadian.py. -/
def CircadianFactoring.compute (cf : CircadianFactoring) (ctx : GameContext) :
    CircadianAdjustment :=
  if ¬ circadianSensitiveSports.contains (pyUpper ctx.sport) then
    { factor := 0, reasons := ["Sport not circadian-sensitive"] }
  else
    let homeHour := ctx.homeLocalHour
    -- 1 / 2. late-night penalty, else optimal-window bonus (range(14, 21))
    let s12 : ℚ × List String :=
      if 21 ≤ homeHour then (-cf.lateNightPenalty, ["Late-night game"])
      else if 14 ≤ homeHour ∧ homeHour < 21 then (cf.optimalBonus, ["Optimal tip-off hour"])
      else (0, [])
    -- 3. away team back-to-back penalty
    let s3 : ℚ × List String :=
      if ctx.awayBackToBack then (-cf.backToBackPenalty, ["Away team B2B"]) else (0, [])
    -- 4. home team back-to-back half penalty
    let s4 : ℚ × List String :=
      if ctx.homeBackToBack then (-(cf.backToBackPenalty / 2), ["Home team B2B"]) else (0, [])
    -- 5. timezone travel shift
    let shift := ctx.awayTravelShift
    let s5 : ℚ × List String :=
      if shift > 3/2 then
        (-(min (shift * cf.timezoneShiftPenalty) (20/100)), ["Away team eastward travel shift"])
      else if shift < -(3/2) then
        (min (|shift| * cf.timezoneShiftPenalty / 2) (5/100), ["Away team westward travel"])
      else (0, [])
    { factor := roundTo 4 (s12.1 + s3.1 + s4.1 + s5.1)
      reasons := s12.2 ++ s3.2 ++ s4.2 ++ s5.2 }

/-! ### Parlay builder (src/optimization/parlay_builder.py) -/

/-- Leg dataclass. The game time datetime is modelled by its UTC hour and
minute (the only attributes the circadian code reads); None becomes none. -/
structure Leg where
  eventId : String
  selection : String
  odds : ℚ
  winProbability : ℚ := 0
  gameTimeUtc : Option (ℕ × ℕ) := none
  homeTzOffset : ℚ := -5
  awayTzOffset : ℚ := -5
  awayBackToBack : Bool := false
  homeBackToBack : Bool := false
deriving DecidableEq

/-- Parlay dataclass (the uuid id field is elided). -/
structure Parlay where
  sport : String
  legs : List Leg := []
  odds : ℚ := 0
  recommendedStake : ℚ := 0
  expectedValue : ℚ := 0
  winProbability : ℚ := 0
deriving DecidableEq

/-- ParlayBuilder.build. The use-circadian flag is the constructor argument
of ParlayBuilder; a ValueError becomes an Except.error. -/
def build (useCircadian : Bool) (legs : List Leg) (sport : String)
    (bankroll : ℚ := 100) (kellyFraction : ℚ := 1/4) (maxExposurePct : ℚ := 1/5) :
    Except String Parlay :=
  if legs = [] then .error "Cannot build a parlay with no legs."
  else
    let combinedOdds : ℚ := legs.foldl (fun a l => a * l.odds) 1
    let combinedWinProb : ℚ :=
      legs.foldl (fun a l => if 0 < l.winProbability then a * l.winProbability else a) 1
    let ev0 := combinedWinProb * (combinedOdds - 1) - (1 - combinedWinProb)
    let ev :=
      if useCircadian then
        legs.foldl (fun e l =>
          match l.gameTimeUtc with
          | none => e
          | some t =>
              let ctx : GameContext :=
                { gameHourUtc := t.1, gameMinuteUtc := t.2,
                  homeTzOffset := l.homeTzOffset, awayTzOffset := l.awayTzOffset,
                  sport := sport, awayBackToBack := l.awayBackToBack,
                  homeBackToBack := l.homeBackToBack }
              (CircadianFactoring.compute {} ctx).apply e) ev0
      else ev0
    let b := combinedOdds - 1
    let stake :=
      if 0 < combinedWinProb ∧ combinedWinProb < 1 ∧ 0 < b then
        let kellyFull := (b * combinedWinProb - (1 - combinedWinProb)) / b
        if 0 < kellyFull then
          min (kellyFull * kellyFraction * bankroll) (bankroll * maxExposurePct)
        else 0
      else 0
    .ok { sport := sport, legs := legs,
          odds := roundTo 4 combinedOdds,
          recommendedStake := roundTo 2 stake,
          expectedValue := roundTo 4 ev,
          winProbability := roundTo 4 combinedWinProb }

/-- Kelly fraction by risk profile (property kelly fraction of ParlayOptimizer). -/
def kellyFractionOf (riskProfile : String) : ℚ :=
  if riskProfile = "aggressive" then 1/2
  else if riskProfile = "balanced" then 1/4
  else if riskProfile = "conservative" then 1/10
  else 1/4

/-- Combinations of size n in the order itertools.combinations emits them
(lexicographic by position in the input list). -/
def combos : ℕ → List Leg → List (List Leg)
  | 0, _ => [[]]
  | _ + 1, [] => []
  | n + 1, x :: xs => (combos n xs).map (fun c => x :: c) ++ combos (n + 1) xs

/-- Sort relation used to model the stable Python sort with key
expected value and reverse=True. -/
def evGE (p q : Parlay) : Prop := q.expectedValue ≤ p.expectedValue

instance : DecidableRel evGE := fun p q =>
  inferInstanceAs (Decidable (q.expectedValue ≤ p.expectedValue))

instance : IsTotal Parlay evGE :=
  ⟨fun a b => le_total b.expectedValue a.expectedValue⟩

instance : IsTrans Parlay evGE :=
  ⟨fun _ _ _ hab hbc => le_trans hbc hab⟩

/-- ParlayOptimizer.generate_optimized_parlays together with the default
fetch-legs implementation. The Leg dataclass has no sport attribute, so
getattr(leg, "sport", sports[0]) always yields sports[0] and the sport
filter keeps every candidate leg; accessing sports[0] with an empty sports
list would raise IndexError in the source, modelled as none. Parlays are
built per combination, kept when expected value reaches min-edge and the
stake is positive, sorted by expected value descending with the stable
list sort, and truncated to top-n. -/
def generateOptimizedParlays (useCircadian : Bool) (riskProfile : String)
    (candidateLegs : List Leg) (sports : List String) (minEdge : ℚ)
    (maxLegs : ℕ) (bankroll : ℚ) (topN : ℕ) : Option (List Parlay) :=
  if candidateLegs = [] then some []
  else
    match sports with
    | [] => none
    | s0 :: _ =>
      let fetched := candidateLegs.filter
        (fun _ => (sports.map pyUpper).contains (pyUpper s0))
      if fetched = [] then some []
      else
        let kf := kellyFractionOf riskProfile
        let built := (List.range' 1 maxLegs).foldl (fun acc n =>
          acc ++ (combos n fetched).filterMap (fun combo =>
            match build useCircadian combo s0 bankroll kf (1/5) with
            | .error _ => none
            | .ok p =>
                if minEdge ≤ p.expectedValue ∧ 0 < p.recommendedStake then some p
                else none)) []
        some ((built.insertionSort evGE).take topN)

/-- The full candidate list of the optimizer before ranking: every
combination of 1 up to maxLegs legs, in the enumeration order of
itertools.combinations, built and kept exactly when its expected value
reaches min-edge and its recommended stake is positive. This names the
append loop of generate_optimized_parlays as one flat list so the
ranking step can be specified against it. -/
def builtParlays (useCircadian : Bool) (riskProfile : String)
    (candidateLegs : List Leg) (sports : List String) (minEdge : ℚ)
    (maxLegs : ℕ) (bankroll : ℚ) : List Parlay :=
  if candidateLegs = [] then []
  else
    match sports with
    | [] => []
    | s0 :: _ =>
      let fetched := candidateLegs.filter
        (fun _ => (sports.map pyUpper).contains (pyUpper s0))
      (List.range' 1 maxLegs).flatMap (fun n =>
        (combos n fetched).filterMap (fun combo =>
          match build useCircadian combo s0 bankroll
              (kellyFractionOf riskProfile) (1/5) with
          | .error _ => none
          | .ok p =>
              if minEdge ≤ p.expectedValue ∧ 0 < p.recommendedStake then some p
              else none))

/-! ### Budget ledger (src/budget.py) -/

/-- Calendar date, the model of datetime.date. -/
structure Date where
  year : ℤ
  month : ℤ
  day : ℤ
deriving DecidableEq

/-- Gregorian leap-year rule. -/
def isLeapYear (y : ℤ) : Bool :=
  y % 4 = 0 && (y % 100 ≠ 0 || y % 400 = 0)

/-- Number of days in a month. -/
def daysInMonth (y m : ℤ) : ℤ :=
  if m = 2 then (if isLeapYear y then 29 else 28)
  else if m = 4 ∨ m = 6 ∨ m = 9 ∨ m = 11 then 30
  else 31

/-- Previous calendar day (model of subtracting timedelta(days=1)). -/
def Date.pred (d : Date) : Date :=
  if 1 < d.day then { d with day := d.day - 1 }
  else if 1 < d.month then
    { d with month := d.month - 1, day := daysInMonth d.year (d.month - 1) }
  else { year := d.year - 1, month := 12, day := 31 }

/-- Next calendar day (model of adding timedelta(days=1)). -/
def Date.succ (d : Date) : Date :=
  if d.day < daysInMonth d.year d.month then { d with day := d.day + 1 }
  else if d.month < 12 then { d with month := d.month + 1, day := 1 }
  else { year := d.year + 1, month := 1, day := 1 }

/-- Subtract a number of days. -/
def Date.subDays (d : Date) : ℕ → Date
  | 0 => d
  | n + 1 => d.pred.subDays n

/-- Add a number of days. -/
def Date.addDays (d : Date) : ℕ → Date
  | 0 => d
  | n + 1 => d.succ.addDays n

/-- Days since 1970-01-01 in the proleptic Gregorian calendar
(standard civil-from-days arithmetic); used only for the weekday. -/
def Date.toEpochDays (d : Date) : ℤ :=
  let y := if d.month ≤ 2 then d.year - 1 else d.year
  let era := Int.fdiv y 400
  let yoe := y - era * 400
  let mp := if 2 < d.month then d.month - 3 else d.month + 9
  let doy := Int.fdiv (153 * mp + 2) 5 + d.day - 1
  let doe := yoe * 365 + Int.fdiv yoe 4 - Int.fdiv yoe 100 + doy
  era * 146097 + doe - 719468

/-- Python date.weekday(): Monday = 0 .. Sunday = 6
(1970-01-01 was a Thursday, weekday 3). -/
def Date.weekday (d : Date) : ℤ := (d.toEpochDays + 3) % 7

/-- Python date ordering (dates compare by year, then month, then day). -/
def Date.ble (a b : Date) : Bool :=
  a.year < b.year ||
  (a.year = b.year && (a.month < b.month ||
    (a.month = b.month && a.day ≤ b.day)))

/-- BudgetPeriod enumeration. -/
inductive BudgetPeriod where
  | daily
  | weekly
  | monthly
deriving DecidableEq

/-- Budget dataclass: period granularity, global limit, per-sport
sub-limits (an association list models the Python dict, preserving
insertion order). -/
structure Budget where
  period : BudgetPeriod
  limit : ℚ
  sportLimits : List (String × ℚ) := []
deriving DecidableEq

/-- Budget.period_start. -/
def Budget.periodStart (b : Budget) (ref : Date) : Date :=
  match b.period with
  | .daily => ref
  | .weekly => ref.subDays ref.weekday.toNat
  | .monthly => { ref with day := 1 }

/-- Budget.period_end: daily is the same day, weekly is start plus six
days, monthly is the first day of the next month minus one day. -/
def Budget.periodEnd (b : Budget) (ref : Date) : Date :=
  let start := b.periodStart ref
  match b.period with
  | .daily => start
  | .weekly => start.addDays 6
  | .monthly =>
      let nextMonth : Date :=
        if start.month = 12 then { year := start.year + 1, month := 1, day := 1 }
        else { start with month := start.month + 1, day := 1 }
      nextMonth.pred

/-- BudgetEntry dataclass; the timestamp is modelled by its calendar
date, the only projection the accounting code reads. -/
structure BudgetEntry where
  betId : String
  amount : ℚ
  sport : String
  sportsbook : String
  date : Date
deriving DecidableEq

/-- BudgetManager state: the budgets dict (keyed by period) and the
append-only entry log. -/
structure BudgetManager where
  budgets : BudgetPeriod → Option Budget
  entries : List BudgetEntry

/-- A fresh BudgetManager. -/
def BudgetManager.init : BudgetManager :=
  { budgets := fun _ => none, entries := [] }

/-- BudgetManager.add_budget; the ValueError on a non-positive limit
becomes an Except.error. -/
def addBudget (m : BudgetManager) (period : BudgetPeriod) (limit : ℚ)
    (sportLimits : List (String × ℚ) := []) : Except String BudgetManager :=
  if limit ≤ 0 then .error "Budget limit must be positive"
  else .ok { m with budgets := (fun p =>
    if p = period then some { period := period, limit := limit, sportLimits := sportLimits }
    else m.budgets p) }

/-- BudgetManager.record_spend; the ValueError on a non-positive amount
becomes an Except.error. -/
def recordSpend (m : BudgetManager) (betId : String) (amount : ℚ)
    (sport : String := "unknown") (sportsbook : String := "unknown")
    (date : Date) : Except String BudgetManager :=
  if amount ≤ 0 then .error "Spend amount must be positive"
  else .ok { m with entries := m.entries ++
    [{ betId := betId, amount := amount, sport := sport,
       sportsbook := sportsbook, date := date }] }

/-- Sport filter of spent_in_period: sport is None, or the entry sport
matches case-insensitively. -/
def sportMatches (entrySport : String) (sport : Option String) : Bool :=
  match sport with
  | none => true
  | some s => pyUpper entrySport = pyUpper s

/-- BudgetManager.spent_in_period. -/
def spentInPeriod (m : BudgetManager) (period : BudgetPeriod)
    (sport : Option String) (ref : Date) : ℚ :=
  match m.budgets period with
  | none => 0
  | some b =>
      let start := b.periodStart ref
      let stop := b.periodEnd ref
      roundTo 2 ((m.entries.filter (fun e =>
        Date.ble start e.date && Date.ble e.date stop &&
        sportMatches e.sport sport)).foldl (fun t e => t + e.amount) 0)

/-- BudgetManager.remaining; the float inf sentinel for an unconfigured
period is modelled as none. The Python truthiness test on sport makes an
empty string fall back to the global limit. -/
def remaining (m : BudgetManager) (period : BudgetPeriod)
    (sport : Option String) (ref : Date) : Option ℚ :=
  match m.budgets period with
  | none => none
  | some b =>
      let limit :=
        match sport with
        | some s =>
            if s ≠ "" then
              match b.sportLimits.find? (fun kv => pyUpper kv.1 = pyUpper s) with
              | some kv => kv.2
              | none => b.limit
            else b.limit
        | none => b.limit
      some (roundTo 2 (max 0 (limit - spentInPeriod m period sport ref)))

/-- The configured budget periods (iteration over the budgets dict). -/
def configuredPeriods (m : BudgetManager) : List BudgetPeriod :=
  [BudgetPeriod.daily, BudgetPeriod.weekly, BudgetPeriod.monthly].filter
    (fun p => (m.budgets p).isSome)

/-- BudgetManager.can_spend: true when no budgets are set, otherwise
false as soon as one configured period has remaining below the amount. -/
def canSpend (m : BudgetManager) (amount : ℚ) (sport : Option String)
    (ref : Date) : Bool :=
  if configuredPeriods m = [] then true
  else (configuredPeriods m).all (fun p =>
    match remaining m p sport ref with
    | none => true
    | some r => amount ≤ r)

/-! ### Risk manager (src/risk_manager.py) -/

/-- Bet audit record (legs snapshot and the two timestamps are elided;
neither is read by any of the accounting code). -/
structure Bet where
  id : String
  betId : String
  brokerName : String
  sport : String
  stake : ℚ
  odds : ℚ
  expectedValue : ℚ
  status : String := "pending"
  result : Option String := none
deriving DecidableEq

/-- RiskManager state: configuration plus the mutable fields, with the
bets dict as an association list keyed by the internal id. -/
structure RiskState where
  bankroll : ℚ := 1000
  maxDailyLossPct : ℚ := 1/10
  maxExposurePct : ℚ := 1/5
  kellyFraction : ℚ := 1/4
  bets : List (String × Bet) := []
  dailyPnl : ℚ := 0
  isCoolingDown : Bool := false
deriving DecidableEq

/-- RiskManager.kelly_stake. -/
def kellyStake (s : RiskState) (winProbability decimalOdds : ℚ) : ℚ :=
  if decimalOdds ≤ 1 ∨ ¬ (0 < winProbability ∧ winProbability < 1) then 0
  else
    let b := decimalOdds - 1
    let q := 1 - winProbability
    let kellyFull := (b * winProbability - q) / b
    if kellyFull ≤ 0 then 0
    else
      let fractional := kellyFull * s.kellyFraction
      let maxStake := s.bankroll * s.maxExposurePct
      roundTo 2 (min (fractional * s.bankroll) maxStake)

/-- RiskManager.check_stop_loss: the returned flag plus the state after
the possible transition into cool-down. -/
def checkStopLoss (s : RiskState) : Bool × RiskState :=
  if s.isCoolingDown then (true, s)
  else
    let lossLimit := s.bankroll * s.maxDailyLossPct
    if s.dailyPnl ≤ -lossLimit then (true, { s with isCoolingDown := true })
    else (false, s)

/-- RiskManager.reset_daily_limits. -/
def resetDailyLimits (s : RiskState) : RiskState :=
  { s with dailyPnl := 0, isCoolingDown := false }

/-- Association-list upsert modelling dict.get plus assignment in the
exposure aggregation. -/
def addTo (m : List (String × ℚ)) (k : String) (v : ℚ) : List (String × ℚ) :=
  if (m.lookup k).isSome then
    m.map (fun kv => if kv.1 = k then (kv.1, kv.2 + v) else kv)
  else m ++ [(k, v)]

/-- Result record of RiskManager.get_exposure. -/
structure Exposure where
  totalOpenStake : ℚ
  openBetCount : ℕ
  byBroker : List (String × ℚ)
  bySport : List (String × ℚ)
  exposurePct : ℚ
deriving DecidableEq

/-- RiskManager.get_exposure. The Python guard on the division is the
truthiness test "if self.bankroll", which only excludes a bankroll of
exactly zero. -/
def getExposure (s : RiskState) : Exposure :=
  let openBets := (s.bets.map Prod.snd).filter (fun b => b.status = "pending")
  let totalStake : ℚ := (openBets.map Bet.stake).sum
  { totalOpenStake := roundTo 2 totalStake,
    openBetCount := openBets.length,
    byBroker := openBets.foldl (fun acc b => addTo acc b.brokerName b.stake) [],
    bySport := openBets.foldl (fun acc b => addTo acc b.sport b.stake) [],
    exposurePct := if s.bankroll ≠ 0 then roundTo 2 (totalStake / s.bankroll * 100) else 0 }

/-- RiskManager.settle_bet: the Option Bet mirrors the None return for an
unknown id; the settled-at timestamp mutation is elided. -/
def settleBet (s : RiskState) (betInternalId result : String) :
    Option Bet × RiskState :=
  match s.bets.lookup betInternalId with
  | none => (none, s)
  | some bet =>
      let bet1 := { bet with status := result, result := some result }
      let bets1 := s.bets.map (fun kv => if kv.1 = betInternalId then (kv.1, bet1) else kv)
      if result = "won" then
        let profit := bet.stake * (bet.odds - 1)
        (some bet1, { s with bets := bets1, bankroll := s.bankroll + profit,
                             dailyPnl := s.dailyPnl + profit })
      else if result = "lost" then
        let s1 : RiskState :=
          { s with bets := bets1, bankroll := s.bankroll - bet.stake,
                   dailyPnl := s.dailyPnl - bet.stake }
        (some bet1, (checkStopLoss s1).2)
      else
        (some bet1, { s with bets := bets1 })

/-- The operations a caller can run against the RiskManager between two
daily resets, as named by the cool-down claim. -/
inductive RiskOp where
  | kelly (winProbability decimalOdds : ℚ)
  | checkStop
  | settle (betInternalId result : String)

/-- State transition of one operation (kelly_stake only reads state). -/
def stepRisk (s : RiskState) : RiskOp → RiskState
  | .kelly _ _ => s
  | .checkStop => (checkStopLoss s).2
  | .settle id result => (settleBet s id result).2

/-- Run a sequence of operations. -/
def runRisk (s : RiskState) : List RiskOp → RiskState
  | [] => s
  | op :: ops => runRisk (stepRisk s op) ops

/-! ### Concrete fixtures used by the scenario theorems -/

/-- Reference date for the budget scenarios (a Wednesday). -/
def d0 : Date := { year := 2024, month := 3, day := 6 }

/-- A leg whose decimal price is below 1. -/
def legHalfPrice : Leg :=
  { eventId := "E1", selection := "s", odds := 1/2, winProbability := 1/2 }

/-- A plain positive-edge leg. -/
def legSimple : Leg :=
  { eventId := "E9", selection := "z", odds := 2, winProbability := 1/2 }

/-- Price 3.0, probability 0.5: expected value 0.5. -/
def legOddsThree : Leg :=
  { eventId := "E1", selection := "a", odds := 3, winProbability := 1/2 }

/-- Price 2.0, probability 0.75: expected value 0.5, same as legOddsThree
but with a lower price. -/
def legOddsTwo : Leg :=
  { eventId := "E2", selection := "b", odds := 2, winProbability := 3/4 }

/-- Price 2.0, probability 0.60 (spec scenario leg). -/
def legPriceTwo : Leg :=
  { eventId := "E1", selection := "a", odds := 2, winProbability := 3/5 }

/-- Price 1.8, probability 0.65 (spec scenario leg). -/
def legPriceEighteen : Leg :=
  { eventId := "E2", selection := "b", odds := 9/5, winProbability := 13/20 }

/-- A pending bet of stake 10. -/
def betPendingTen : Bet :=
  { id := "id1", betId := "B", brokerName := "dk", sport := "NBA",
    stake := 10, odds := 2, expectedValue := 0 }

/-- State with a negative bankroll and one pending bet. -/
def sNegBankroll : RiskState :=
  { bankroll := -100, bets := [("id1", betPendingTen)] }

/-- A pending bet of stake 150 at odds 2. -/
def betStake150 : Bet :=
  { id := "b1", betId := "X", brokerName := "dk", sport := "NBA",
    stake := 150, odds := 2, expectedValue := 1/10 }

/-- Default-configuration state holding one pending 150 bet (bankroll
1000, max daily loss 10 percent). -/
def sOneBet : RiskState := { bets := [("b1", betStake150)] }

/-- State reproducing the kelly-stake rounding boundary. -/
def sKellyCap : RiskState :=
  { bankroll := 4998/100, maxExposurePct := 1/5, kellyFraction := 1/4 }

/-- Single-leg parlay the optimizer builds from legOddsThree. -/
def parlayOddsThree : Parlay :=
  { sport := "NBA", legs := [legOddsThree], odds := 3,
    recommendedStake := 125/2, expectedValue := 1/2, winProbability := 1/2 }

/-- Single-leg parlay the optimizer builds from legOddsTwo. -/
def parlayOddsTwo : Parlay :=
  { sport := "NBA", legs := [legOddsTwo], odds := 2,
    recommendedStake := 125, expectedValue := 1/2, winProbability := 3/4 }

/-- Two-leg parlay combining legOddsThree and legOddsTwo. -/
def parlayBoth : Parlay :=
  { sport := "NBA", legs := [legOddsThree, legOddsTwo], odds := 6,
    recommendedStake := 125/2, expectedValue := 5/4, winProbability := 3/8 }

/-- Manager with a daily budget of 50. -/
def bmDaily50 : BudgetManager :=
  (addBudget BudgetManager.init .daily 50 []).toOption.getD BudgetManager.init

/-- bmDaily50 after one recorded spend of 80 on the reference day. -/
def bmSpent80 : BudgetManager :=
  (recordSpend bmDaily50 "BET1" 80 "NBA" "DK" d0).toOption.getD BudgetManager.init

/-- Manager with a daily budget of 100 and no category sub-limits. -/
def bmDaily100 : BudgetManager :=
  (addBudget BudgetManager.init .daily 100 []).toOption.getD BudgetManager.init

/-- Normal form of bmSpent80 (the record the scenario operations build). -/
def bmSpent80N : BudgetManager :=
  { budgets := fun p =>
      if p = BudgetPeriod.daily then
        some { period := BudgetPeriod.daily, limit := 50, sportLimits := [] }
      else none,
    entries := [{ betId := "BET1", amount := 80, sport := "NBA",
                  sportsbook := "DK", date := d0 }] }

/-- Normal form of the two-category scenario manager. -/
def bmTwoSportsN : BudgetManager :=
  { budgets := fun p =>
      if p = BudgetPeriod.daily then
        some { period := BudgetPeriod.daily, limit := 100, sportLimits := [] }
      else none,
    entries := [{ betId := "B1", amount := 80, sport := "NBA",
                  sportsbook := "DK", date := d0 },
                { betId := "B2", amount := 80, sport := "NFL",
                  sportsbook := "DK", date := d0 }] }

/-- bmDaily100 after an 80 spend on NBA, on the reference day. -/
def bmSpentNba : BudgetManager :=
  (recordSpend bmDaily100 "B1" 80 "NBA" "DK" d0).toOption.getD BudgetManager.init

/-- bmSpentNba after an 80 spend on NFL on the reference day (total 160,
past the global daily limit of 100). -/
def bmTwoSports : BudgetManager :=
  (recordSpend bmSpentNba "B2" 80 "NFL" "DK" d0).toOption.getD BudgetManager.init

/-! ### Rounding lemmas -/

theorem floor_le_roundHalfEven (x : ℚ) : ⌊x⌋ ≤ roundHalfEven x := by
  unfold roundHalfEven
  dsimp only
  split
  · exact le_refl _
  · split
    · omega
    · split <;> omega

theorem roundHalfEven_le (x : ℚ) : (roundHalfEven x : ℚ) ≤ x + 1/2 := by
  unfold roundHalfEven
  dsimp only
  have hf : (⌊x⌋ : ℚ) ≤ x := Int.floor_le x
  split
  · linarith
  · rename_i h1
    push_neg at h1
    split
    · push_cast
      linarith
    · rename_i h2
      push_neg at h2
      have hr : x - (⌊x⌋ : ℚ) = 1/2 := le_antisymm h2 h1
      split
      · linarith
      · push_cast
        linarith

theorem roundHalfEven_nonneg {x : ℚ} (hx : 0 ≤ x) : 0 ≤ roundHalfEven x := by
  have h0 : (0 : ℤ) ≤ ⌊x⌋ := Int.floor_nonneg.mpr hx
  exact le_trans h0 (floor_le_roundHalfEven x)

theorem roundTo_nonneg {x : ℚ} (n : ℕ) (hx : 0 ≤ x) : 0 ≤ roundTo n x := by
  unfold roundTo
  have hp : (0 : ℚ) < (10 : ℚ) ^ n := by positivity
  have h1 : 0 ≤ roundHalfEven (x * (10 : ℚ) ^ n) :=
    roundHalfEven_nonneg (by positivity)
  have h2 : (0 : ℚ) ≤ (roundHalfEven (x * (10 : ℚ) ^ n) : ℚ) := by exact_mod_cast h1
  positivity

theorem roundTo_le (n : ℕ) (x : ℚ) :
    roundTo n x ≤ x + 1 / (2 * (10 : ℚ) ^ n) := by
  unfold roundTo
  have hp : (0 : ℚ) < (10 : ℚ) ^ n := by positivity
  have h1 : (roundHalfEven (x * (10 : ℚ) ^ n) : ℚ) ≤ x * (10 : ℚ) ^ n + 1/2 :=
    roundHalfEven_le _
  rw [div_le_iff₀ hp]
  have : (x + 1 / (2 * (10 : ℚ) ^ n)) * (10 : ℚ) ^ n = x * (10 : ℚ) ^ n + 1/2 := by
    field_simp
    ring
  rw [this]
  exact h1

/-! ### Claim C9 — CircadianAdjustment.apply -/

/-- C9 counterexample. The claim states that apply is monotone in the
factor for every raw edge and that every factor at most -1 yields exactly
0. At raw edge -1 the code gives apply(-1) = 0 for factor -1 but
apply(-1) = 1 for the more negative factor -2: the factor -2 result is
not 0, and the more negative factor yields the larger adjusted edge, so
both parts of the claim fail for negative raw edges. -/
theorem c9_counterexample :
    CircadianAdjustment.apply { factor := -2 } (-1) = 1 ∧
    CircadianAdjustment.apply { factor := -1 } (-1) = 0 := by
  constructor <;> · unfold CircadianAdjustment.apply; norm_num

/-- C9 (amended): for every nonnegative raw edge, apply is monotone in
the factor (a more negative factor never yields a larger adjusted edge),
and any factor at most -1 yields exactly 0. For negative raw edges the
original claim fails (see the counterexample). -/
theorem c9_apply_monotone (a1 a2 : CircadianAdjustment) (rawEdge : ℚ)
    (hEdge : 0 ≤ rawEdge) :
    (a1.factor ≤ a2.factor → a1.apply rawEdge ≤ a2.apply rawEdge) ∧
    (a1.factor ≤ -1 → a1.apply rawEdge = 0) := by
  unfold CircadianAdjustment.apply
  constructor
  · intro hf
    have h1 : rawEdge * (1 + a1.factor) ≤ rawEdge * (1 + a2.factor) :=
      mul_le_mul_of_nonneg_left (by linarith) hEdge
    exact max_le_max le_rfl h1
  · intro hf
    have h1 : rawEdge * (1 + a1.factor) ≤ 0 :=
      mul_nonpos_of_nonneg_of_nonpos hEdge (by linarith)
    exact max_eq_left h1

/-- C9 witness: a concrete application of the amended theorem. -/
theorem c9_witness :
    CircadianAdjustment.apply { factor := -(3/2) } 5 = 0 :=
  (c9_apply_monotone { factor := -(3/2) } { factor := 0 } 5 (by norm_num)).2
    (by norm_num)

/-! ### Claim C4 — RiskManager.kelly_stake -/

/-- C4 counterexample. The claim states the returned stake never exceeds
bankroll times max-exposure. With bankroll 49.98 and max exposure 20
percent the cap is 9.996; at win probability 0.81 and odds 21 the
pre-rounding stake is capped at exactly 9.996, and the final rounding to
two decimals returns 10.0, which exceeds the cap. -/
theorem c4_counterexample :
    kellyStake sKellyCap (81/100) 21 = 10 ∧
    ¬ ((10 : ℚ) ≤ sKellyCap.bankroll * sKellyCap.maxExposurePct) := by
  constructor
  · norm_num [kellyStake, sKellyCap, roundTo, roundHalfEven, min_def]
  · norm_num [sKellyCap]

/-- C4 (amended): kelly_stake returns exactly 0 when the odds are at most
1, when the win probability is outside the open unit interval, or when
the full-Kelly fraction is non-positive; and the returned stake never
exceeds max(0, bankroll * maxExposurePct) + 0.005 — the cap is applied
before the rounding to whole cents, so the returned value can exceed the
exact cap by up to half a cent (and is 0, hence above a negative cap,
in the no-edge branches). -/
theorem c4_kelly_stake (s : RiskState) (p odds : ℚ) :
    (odds ≤ 1 → kellyStake s p odds = 0) ∧
    (¬ (0 < p ∧ p < 1) → kellyStake s p odds = 0) ∧
    (1 < odds → ((odds - 1) * p - (1 - p)) / (odds - 1) ≤ 0 →
      kellyStake s p odds = 0) ∧
    kellyStake s p odds ≤ max 0 (s.bankroll * s.maxExposurePct) + 1/200 := by
  refine ⟨?_, ?_, ?_, ?_⟩
  · intro h
    unfold kellyStake
    rw [if_pos (Or.inl h)]
  · intro h
    unfold kellyStake
    rw [if_pos (Or.inr h)]
  · intro h1 h2
    unfold kellyStake
    by_cases hp : 0 < p ∧ p < 1
    · rw [if_neg (by push_neg; exact ⟨by linarith, hp⟩)]
      dsimp only
      rw [if_pos h2]
    · rw [if_pos (Or.inr hp)]
  · unfold kellyStake
    dsimp only
    split
    · have h0 : (0 : ℚ) ≤ max 0 (s.bankroll * s.maxExposurePct) := le_max_left 0 _
      linarith
    · split
      · have h0 : (0 : ℚ) ≤ max 0 (s.bankroll * s.maxExposurePct) := le_max_left 0 _
        linarith
      · have hr := roundTo_le 2
          (min (((odds - 1) * p - (1 - p)) / (odds - 1) * s.kellyFraction * s.bankroll)
            (s.bankroll * s.maxExposurePct))
        have hmin : min (((odds - 1) * p - (1 - p)) / (odds - 1) * s.kellyFraction * s.bankroll)
            (s.bankroll * s.maxExposurePct) ≤ s.bankroll * s.maxExposurePct :=
          min_le_right _ _
        have hmax : s.bankroll * s.maxExposurePct ≤ max 0 (s.bankroll * s.maxExposurePct) :=
          le_max_right _ _
        have hnum : (1 : ℚ) / (2 * (10 : ℚ) ^ (2 : ℕ)) = 1/200 := by norm_num
        rw [hnum] at hr
        linarith

/-- C4 witness: a concrete application of the amended theorem. -/
theorem c4_witness :
    kellyStake { bankroll := 1000 } 0 2 = 0 :=
  (c4_kelly_stake { bankroll := 1000 } 0 2).2.1 (by norm_num)

/-! ### Claim C5 — ParlayBuilder.build input validation -/

/-- C5 counterexample. The claim states that build rejects any leg list
containing a leg with price at most 1.0. The builder performs no price
validation: a single leg with decimal price 0.5 still produces a
candidate parlay instead of an error. -/
theorem c5_counterexample :
    (build false [legHalfPrice] "NBA" 100 (1/4) (1/5)).toOption.isSome = true := by
  decide

/-- C5 (amended): build fails with the empty-input error exactly when the
leg list is empty; for every non-empty leg list it returns a candidate,
performing no validation of leg prices (legs with price at most 1.0 are
accepted). -/
theorem c5_build_empty_only (u : Bool) (legs : List Leg) (sport : String)
    (bankroll kf mep : ℚ) :
    (build u [] sport bankroll kf mep
        = .error "Cannot build a parlay with no legs.") ∧
    (legs ≠ [] → (build u legs sport bankroll kf mep).toOption.isSome = true) := by
  constructor
  · rfl
  · intro h
    unfold build
    rw [if_neg h]
    rfl

/-- C5 witness: a concrete application of the amended theorem. -/
theorem c5_witness :
    (build true [legSimple] "MLB" 100 (1/4) (1/5)).toOption.isSome = true :=
  (c5_build_empty_only true [legSimple] "MLB" 100 (1/4) (1/5)).2 (by decide)

/-! ### Claim C7 — combined price and probability of a built parlay -/

theorem foldl_mul_odds (l : List Leg) (a : ℚ) :
    l.foldl (fun acc leg => acc * leg.odds) a = a * (l.map Leg.odds).prod := by
  induction l generalizing a with
  | nil => simp
  | cons x xs ih => simp [ih, mul_assoc]

theorem foldl_mul_prob (l : List Leg) (a : ℚ) :
    l.foldl (fun acc leg =>
        if 0 < leg.winProbability then acc * leg.winProbability else acc) a
      = a * ((l.filter (fun leg => decide (0 < leg.winProbability))).map
          Leg.winProbability).prod := by
  induction l generalizing a with
  | nil => simp
  | cons x xs ih =>
    by_cases h : 0 < x.winProbability
    · simp [h, ih, mul_assoc]
    · simp [h, ih]

theorem roundTo_zero (n : ℕ) : roundTo n 0 = 0 := by
  unfold roundTo roundHalfEven
  norm_num

/-- C7: for every non-empty leg list with all prices above 1, the built
parlay combined price is the rounded product of the leg prices and does
not depend on the leg order; the combined win probability multiplies only
the legs with known (positive) probability; when every probability is
zero the recommended stake is 0; and the two spec scenario legs
(2.0 at 0.60 and 1.8 at 0.65) combine to price 3.6 and probability 0.39. -/
theorem c7_combined_price_probability (u : Bool) (legs : List Leg)
    (sport : String) (bankroll kf mep : ℚ)
    (hne : legs ≠ []) (hodds : ∀ l ∈ legs, 1 < l.odds) :
    ((build u legs sport bankroll kf mep).toOption.map Parlay.odds
        = some (roundTo 4 ((legs.map Leg.odds).prod))) ∧
    ((build u legs sport bankroll kf mep).toOption.map Parlay.winProbability
        = some (roundTo 4 (((legs.filter (fun l =>
            decide (0 < l.winProbability))).map Leg.winProbability).prod))) ∧
    (∀ legs2, legs2.Perm legs →
        (build u legs2 sport bankroll kf mep).toOption.map Parlay.odds
          = (build u legs sport bankroll kf mep).toOption.map Parlay.odds) ∧
    ((∀ l ∈ legs, l.winProbability = 0) →
        (build u legs sport bankroll kf mep).toOption.map Parlay.recommendedStake
          = some 0) ∧
    ((build false [legPriceTwo, legPriceEighteen] "NBA" 100 (1/4) (1/5)).toOption.map
        (fun q => (q.odds, q.winProbability)) = some (18/5, 39/100)) := by
  have hOdds : ∀ ls : List Leg, ls ≠ [] →
      (build u ls sport bankroll kf mep).toOption.map Parlay.odds
        = some (roundTo 4 ((ls.map Leg.odds).prod)) := by
    intro ls hnil
    unfold build
    rw [if_neg hnil]
    simp [Except.toOption, foldl_mul_odds]
  refine ⟨hOdds legs hne, ?_, ?_, ?_, ?_⟩
  · unfold build
    rw [if_neg hne]
    simp [Except.toOption, foldl_mul_prob]
  · intro legs2 hperm
    have hne2 : legs2 ≠ [] := by
      intro h0
      rw [h0] at hperm
      exact hne hperm.symm.eq_nil
    rw [hOdds legs2 hne2, hOdds legs hne, (hperm.map Leg.odds).prod_eq]
  · intro hz
    have hcw : legs.foldl (fun a l =>
        if 0 < l.winProbability then a * l.winProbability else a) (1 : ℚ) = 1 := by
      rw [foldl_mul_prob]
      have hf : legs.filter (fun leg => decide (0 < leg.winProbability)) = [] := by
        rw [List.filter_eq_nil_iff]
        intro a ha
        simp [hz a ha]
      rw [hf]
      simp
    unfold build
    rw [if_neg hne]
    simp only [Except.toOption, Option.map_some, hcw, Option.some.injEq]
    norm_num [roundTo_zero]
  · unfold build
    rw [if_neg (by decide : ¬([legPriceTwo, legPriceEighteen] = ([] : List Leg)))]
    norm_num [legPriceTwo, legPriceEighteen, Except.toOption, roundTo, roundHalfEven]

/-- C7 witness: a concrete application of the theorem. -/
theorem c7_witness :
    (build false [legSimple] "X" 100 (1/4) (1/5)).toOption.map Parlay.odds
      = some (roundTo 4 (([legSimple].map Leg.odds).prod)) :=
  (c7_combined_price_probability false [legSimple] "X" 100 (1/4) (1/5)
    (by decide)
    (by
      intro l hl
      rw [List.mem_singleton] at hl
      subst hl
      norm_num [legSimple])).1

/-! ### Claim C6 — optimizer filtering, ranking and truncation -/

theorem foldl_append_flatMap {α β : Type} (l : List α) (g : α → List β)
    (acc : List β) :
    l.foldl (fun a n => a ++ g n) acc = acc ++ l.flatMap g := by
  induction l generalizing acc with
  | nil => simp
  | cons x xs ih => simp [ih]

/-- Evaluation of the optimizer on the tie pool: the two single-leg
parlays share expected value 0.5 and appear in enumeration order
(price 3 before price 2) behind the two-leg parlay. -/
theorem c6_eval :
    generateOptimizedParlays false "balanced" [legOddsThree, legOddsTwo]
        ["NBA"] (1/20) 2 1000 10
      = some [parlayBoth, parlayOddsThree, parlayOddsTwo] := by
  have hne0 : ¬([legOddsThree, legOddsTwo] = ([] : List Leg)) := by decide
  have hbA : build false [legOddsThree] "NBA" 1000 (1/4) (1/5)
      = .ok parlayOddsThree := by
    unfold build
    rw [if_neg (by decide : ¬([legOddsThree] = ([] : List Leg)))]
    unfold parlayOddsThree
    rw [Except.ok.injEq, Parlay.mk.injEq]
    norm_num [legOddsThree, roundTo, roundHalfEven, min_def]
  have hbB : build false [legOddsTwo] "NBA" 1000 (1/4) (1/5)
      = .ok parlayOddsTwo := by
    unfold build
    rw [if_neg (by decide : ¬([legOddsTwo] = ([] : List Leg)))]
    unfold parlayOddsTwo
    rw [Except.ok.injEq, Parlay.mk.injEq]
    norm_num [legOddsTwo, roundTo, roundHalfEven, min_def]
  have hbAB : build false [legOddsThree, legOddsTwo] "NBA" 1000 (1/4) (1/5)
      = .ok parlayBoth := by
    unfold build
    rw [if_neg hne0]
    unfold parlayBoth
    rw [Except.ok.injEq, Parlay.mk.injEq]
    norm_num [legOddsThree, legOddsTwo, roundTo, roundHalfEven, min_def]
  have hkf : kellyFractionOf "balanced" = 1/4 := rfl
  have hfetch : [legOddsThree, legOddsTwo].filter
      (fun _ => (List.map pyUpper ["NBA"]).contains (pyUpper "NBA"))
      = [legOddsThree, legOddsTwo] := rfl
  unfold generateOptimizedParlays
  rw [if_neg hne0]
  dsimp only
  rw [hfetch, if_neg hne0, hkf]
  simp only [List.range', List.foldl_cons, List.foldl_nil, combos,
    List.map_cons, List.map_nil, List.append_nil, List.nil_append,
    List.cons_append, List.filterMap_cons, List.filterMap_nil,
    hbA, hbB, hbAB]
  norm_num [parlayOddsThree, parlayOddsTwo, parlayBoth,
    List.insertionSort, List.orderedInsert, evGE]

/-- C6 counterexample. The claim states ties in expected value are broken
by lower combined price. On this pool the two tied candidates (expected
value 0.5) come back with combined price 3 before combined price 2: the
stable sort keeps enumeration order and never consults the price. -/
theorem c6_counterexample :
    (generateOptimizedParlays false "balanced" [legOddsThree, legOddsTwo]
        ["NBA"] (1/20) 2 1000 10).map
      (fun l => l.map (fun p => (p.expectedValue, p.odds)))
      = some [(5/4, 6), (1/2, 3), (1/2, 2)] := by
  rw [c6_eval]
  norm_num [parlayBoth, parlayOddsThree, parlayOddsTwo]

theorem combos_succ_nil (n : ℕ) : combos (n + 1) ([] : List Leg) = [] := rfl

theorem flatMap_combos_nil {β : Type} (maxLegs : ℕ) (g : List Leg → Option β) :
    (List.range' 1 maxLegs).flatMap
      (fun n => (combos n ([] : List Leg)).filterMap g) = [] := by
  rw [List.eq_nil_iff_forall_not_mem]
  intro x hx
  obtain ⟨n, hn, hx2⟩ := List.mem_flatMap.mp hx
  obtain ⟨i, _, hi⟩ := List.mem_range'.mp hn
  subst hi
  rw [(by omega : 1 + 1 * i = i + 1), combos_succ_nil] at hx2
  simp at hx2

theorem filter_orderedInsert_of_eq (v : ℚ) (a : Parlay) (l : List Parlay)
    (ha : a.expectedValue = v) :
    (List.orderedInsert evGE a l).filter (fun p => decide (p.expectedValue = v))
      = a :: l.filter (fun p => decide (p.expectedValue = v)) := by
  induction l with
  | nil => simp [List.orderedInsert, ha]
  | cons y ys ih =>
    by_cases h : evGE a y
    · rw [List.orderedInsert, if_pos h]
      simp [List.filter_cons, ha]
    · have hy : ¬ (y.expectedValue = v) := by
        intro hv
        exact h (le_of_eq (hv.trans ha.symm))
      rw [List.orderedInsert, if_neg h]
      simp only [List.filter_cons, hy, decide_eq_true_eq, if_neg, ih]
      simp [hy]

theorem filter_orderedInsert_of_ne (v : ℚ) (a : Parlay) (l : List Parlay)
    (ha : ¬ a.expectedValue = v) :
    (List.orderedInsert evGE a l).filter (fun p => decide (p.expectedValue = v))
      = l.filter (fun p => decide (p.expectedValue = v)) := by
  induction l with
  | nil => simp [List.orderedInsert, ha]
  | cons y ys ih =>
    by_cases h : evGE a y
    · rw [List.orderedInsert, if_pos h]
      simp [List.filter_cons, ha]
    · rw [List.orderedInsert, if_neg h]
      simp only [List.filter_cons, ih]

/-- The stable sort used to model the Python ranking preserves, for each
expected value, the subsequence of candidates carrying that value: ties
keep their enumeration order. -/
theorem filter_insertionSort_stable (v : ℚ) (l : List Parlay) :
    (List.insertionSort evGE l).filter (fun p => decide (p.expectedValue = v))
      = l.filter (fun p => decide (p.expectedValue = v)) := by
  induction l with
  | nil => rfl
  | cons a l ih =>
    rw [List.insertionSort]
    by_cases ha : a.expectedValue = v
    · rw [filter_orderedInsert_of_eq v a _ ha, ih]
      simp [List.filter_cons, ha]
    · rw [filter_orderedInsert_of_ne v a _ ha, ih]
      simp [List.filter_cons, ha]

/-- C6 (amended): the optimizer output is exactly the first top-n entries
of the stable descending sort (by expected value) of the full candidate
list builtParlays — the candidates that pass both filters, in enumeration
order. Consequently every returned parlay passes both filters, the output
length is at most top-n, the output is sorted by expected value
descending, and for each expected value the sorted list carries exactly
the tied candidates in their enumeration order — ties are not re-ordered
by combined price. -/
theorem c6_optimizer_output (u : Bool) (profile : String) (pool : List Leg)
    (sports : List String) (minEdge : ℚ) (maxLegs : ℕ) (bankroll : ℚ)
    (topN : ℕ) (out : List Parlay)
    (hgen : generateOptimizedParlays u profile pool sports minEdge maxLegs
        bankroll topN = some out) :
    (out = (List.insertionSort evGE
        (builtParlays u profile pool sports minEdge maxLegs bankroll)).take topN) ∧
    (∀ p ∈ out, minEdge ≤ p.expectedValue ∧ 0 < p.recommendedStake) ∧
    out.length ≤ topN ∧
    out.Sorted evGE ∧
    (∀ v : ℚ, (List.insertionSort evGE
          (builtParlays u profile pool sports minEdge maxLegs bankroll)).filter
          (fun p => decide (p.expectedValue = v))
        = (builtParlays u profile pool sports minEdge maxLegs bankroll).filter
          (fun p => decide (p.expectedValue = v))) := by
  have hout : out = (List.insertionSort evGE
      (builtParlays u profile pool sports minEdge maxLegs bankroll)).take topN := by
    unfold generateOptimizedParlays at hgen
    unfold builtParlays
    by_cases h1 : pool = []
    · rw [if_pos h1, Option.some.injEq] at hgen
      rw [if_pos h1, ← hgen]
      simp [List.insertionSort]
    · rw [if_neg h1] at hgen
      rw [if_neg h1]
      cases sports with
      | nil => simp at hgen
      | cons s0 rest =>
        dsimp only at hgen ⊢
        by_cases h2 : pool.filter
            (fun _ => ((s0 :: rest).map pyUpper).contains (pyUpper s0)) = []
        · rw [if_pos h2, Option.some.injEq] at hgen
          rw [← hgen, h2, flatMap_combos_nil]
          simp [List.insertionSort]
        · rw [if_neg h2, Option.some.injEq] at hgen
          rw [← hgen, foldl_append_flatMap, List.nil_append]
  have hmem : ∀ p ∈ builtParlays u profile pool sports minEdge maxLegs bankroll,
      minEdge ≤ p.expectedValue ∧ 0 < p.recommendedStake := by
    intro p hp
    unfold builtParlays at hp
    by_cases h1 : pool = []
    · rw [if_pos h1] at hp
      simp at hp
    · rw [if_neg h1] at hp
      cases sports with
      | nil => simp at hp
      | cons s0 rest =>
        dsimp only at hp
        obtain ⟨n, _, hn⟩ := List.mem_flatMap.mp hp
        obtain ⟨combo, _, hcombo⟩ := List.mem_filterMap.mp hn
        cases hb : build u combo s0 bankroll (kellyFractionOf profile) (1/5) with
        | error e => rw [hb] at hcombo; simp at hcombo
        | ok q =>
          rw [hb] at hcombo
          dsimp only at hcombo
          by_cases hc : minEdge ≤ q.expectedValue ∧ 0 < q.recommendedStake
          · rw [if_pos hc, Option.some.injEq] at hcombo
            rw [← hcombo]
            exact hc
          · rw [if_neg hc] at hcombo
            simp at hcombo
  refine ⟨hout, ?_, ?_, ?_, fun v => filter_insertionSort_stable v _⟩
  · intro p hp
    rw [hout] at hp
    exact hmem p ((List.perm_insertionSort evGE _).subset
      ((List.take_sublist _ _).subset hp))
  · rw [hout, List.length_take]
    exact min_le_left _ _
  · rw [hout]
    exact (List.sorted_insertionSort evGE _).sublist (List.take_sublist _ _)

/-- C6 witness: a concrete application of the amended theorem. -/
theorem c6_witness :
    ((generateOptimizedParlays false "balanced" [legOddsThree, legOddsTwo]
        ["NBA"] (1/20) 2 1000 10).getD []).length ≤ 10 := by
  rw [c6_eval]
  exact (c6_optimizer_output false "balanced" [legOddsThree, legOddsTwo]
    ["NBA"] (1/20) 2 1000 10 [parlayBoth, parlayOddsThree, parlayOddsTwo]
    c6_eval).2.2.1

/-! ### Claim C8 — exposure aggregation guard -/

/-- C8 counterexample. The claim states exposurePct is 0 for every
bankroll at most 0. The code guard is the Python truthiness test, which
only catches a bankroll of exactly zero: with bankroll -100 and one
pending stake of 10 the computed exposure percentage is -10, not 0. -/
theorem c8_counterexample :
    (getExposure sNegBankroll).exposurePct = -10 ∧
    sNegBankroll.bankroll < 0 ∧ ((-10 : ℚ) ≠ 0) := by
  refine ⟨?_, by norm_num [sNegBankroll], by norm_num⟩
  have hfil : (sNegBankroll.bets.map Prod.snd).filter
      (fun b => decide (b.status = "pending")) = [betPendingTen] := rfl
  unfold getExposure
  rw [hfil]
  norm_num [sNegBankroll, betPendingTen, roundTo, roundHalfEven]

/-- C8 (amended): getExposure aggregates only the pending bets; the
exposure percentage equals the rounded totalOpenStake / bankroll * 100
whenever bankroll is nonzero (in particular for positive bankroll), and
is 0 exactly when bankroll is zero — the truthiness guard excludes only
the zero-division case, so a negative bankroll yields a computed
(negative) percentage rather than 0. -/
theorem c8_exposure_guard (s : RiskState) :
    ((getExposure s).totalOpenStake
        = roundTo 2 ((((s.bets.map Prod.snd).filter (fun b =>
            decide (b.status = "pending"))).map Bet.stake).sum)) ∧
    ((getExposure s).openBetCount
        = ((s.bets.map Prod.snd).filter (fun b =>
            decide (b.status = "pending"))).length) ∧
    (s.bankroll = 0 → (getExposure s).exposurePct = 0) ∧
    (s.bankroll ≠ 0 → (getExposure s).exposurePct
        = roundTo 2 ((((s.bets.map Prod.snd).filter (fun b =>
            decide (b.status = "pending"))).map Bet.stake).sum / s.bankroll * 100)) := by
  refine ⟨rfl, rfl, ?_, ?_⟩
  · intro h
    unfold getExposure
    dsimp only
    rw [if_neg (not_not_intro h)]
  · intro h
    unfold getExposure
    dsimp only
    rw [if_pos h]

/-- C8 witness: a concrete application of the amended theorem. -/
theorem c8_witness :
    (getExposure { bankroll := 0 }).exposurePct = 0 :=
  (c8_exposure_guard { bankroll := 0 }).2.2.1 rfl

/-! ### Claim C3 — bet settlement accounting -/

theorem checkStopLoss_snd_bankroll (s : RiskState) :
    (checkStopLoss s).2.bankroll = s.bankroll := by
  unfold checkStopLoss
  dsimp only
  split_ifs <;> rfl

theorem checkStopLoss_snd_dailyPnl (s : RiskState) :
    (checkStopLoss s).2.dailyPnl = s.dailyPnl := by
  unfold checkStopLoss
  dsimp only
  split_ifs <;> rfl

theorem checkStopLoss_snd_cool_iff (s : RiskState) :
    ((checkStopLoss s).2.isCoolingDown = true ↔
      (s.isCoolingDown = true ∨
        s.dailyPnl ≤ -(s.bankroll * s.maxDailyLossPct))) := by
  unfold checkStopLoss
  dsimp only
  split_ifs with h1 h2
  · simp [h1]
  · simp [h2]
  · simp [h1, h2]

/-- C3: settling a recorded bet with result won adds exactly
stake * (price - 1) to bankroll and daily P&L; result lost subtracts
exactly the stake from both and re-runs the stop-loss check (so a loss
can switch on the cool-down); result void changes neither; and settling
an unknown id returns none with the state (bets map included) unchanged. -/
theorem c3_settle_bet (s : RiskState) (id result : String) :
    (s.bets.lookup id = none → settleBet s id result = (none, s)) ∧
    (∀ bet, s.bets.lookup id = some bet →
      ((result = "won" →
          (settleBet s id result).2.bankroll
              = s.bankroll + bet.stake * (bet.odds - 1) ∧
          (settleBet s id result).2.dailyPnl
              = s.dailyPnl + bet.stake * (bet.odds - 1)) ∧
       (result = "lost" →
          (settleBet s id result).2.bankroll = s.bankroll - bet.stake ∧
          (settleBet s id result).2.dailyPnl = s.dailyPnl - bet.stake ∧
          ((settleBet s id result).2.isCoolingDown = true ↔
            (s.isCoolingDown = true ∨
              s.dailyPnl - bet.stake
                ≤ -((s.bankroll - bet.stake) * s.maxDailyLossPct)))) ∧
       (result = "void" →
          (settleBet s id result).2.bankroll = s.bankroll ∧
          (settleBet s id result).2.dailyPnl = s.dailyPnl))) := by
  constructor
  · intro h
    unfold settleBet
    rw [h]
  · intro bet hb
    refine ⟨?_, ?_, ?_⟩
    · intro hr
      subst hr
      unfold settleBet
      rw [hb]
      dsimp only
      rw [if_pos rfl]
      exact ⟨rfl, rfl⟩
    · intro hr
      subst hr
      unfold settleBet
      rw [hb]
      dsimp only
      rw [if_neg (by decide : ¬("lost" = "won")), if_pos rfl]
      refine ⟨?_, ?_, ?_⟩
      · rw [checkStopLoss_snd_bankroll]
      · rw [checkStopLoss_snd_dailyPnl]
      · rw [checkStopLoss_snd_cool_iff]
    · intro hr
      subst hr
      unfold settleBet
      rw [hb]
      dsimp only
      rw [if_neg (by decide : ¬("void" = "won")),
        if_neg (by decide : ¬("void" = "lost"))]
      exact ⟨rfl, rfl⟩

/-- C3 witness: settling the 150 loss drops the default 1000 bankroll by
exactly the stake. -/
theorem c3_witness :
    (settleBet sOneBet "b1" "lost").2.bankroll
      = sOneBet.bankroll - betStake150.stake :=
  (((c3_settle_bet sOneBet "b1" "lost").2 betStake150 rfl).2.1 rfl).1

/-! ### Claim C1 — cool-down state machine -/

theorem stepRisk_cooling (s : RiskState) (op : RiskOp)
    (h : s.isCoolingDown = true) : (stepRisk s op).isCoolingDown = true := by
  cases op with
  | kelly p o => exact h
  | checkStop =>
    dsimp only [stepRisk]
    unfold checkStopLoss
    rw [if_pos h]
    exact h
  | settle id result =>
    dsimp only [stepRisk]
    unfold settleBet
    cases hl : s.bets.lookup id with
    | none => exact h
    | some bet =>
      dsimp only
      split_ifs
      · exact h
      · unfold checkStopLoss
        rw [if_pos h]
        exact h
      · exact h

theorem runRisk_cooling (ops : List RiskOp) (s : RiskState)
    (h : s.isCoolingDown = true) : (runRisk s ops).isCoolingDown = true := by
  induction ops generalizing s with
  | nil => exact h
  | cons op rest ih => exact ih (stepRisk s op) (stepRisk_cooling s op h)

/-- C1: check_stop_loss moves a normal state into cool-down exactly when
the daily P&L is at or below minus bankroll times the daily loss limit
(and reports true exactly then); while cooling down it reports true and
changes nothing; reset_daily_limits clears the flag and zeroes the daily
P&L; and once the flag is set, no sequence of kelly-stake, stop-loss
check or settlement calls ever clears it. -/
theorem c1_cooldown_state_machine (s : RiskState) (ops : List RiskOp) :
    (s.isCoolingDown = true → checkStopLoss s = (true, s)) ∧
    (s.isCoolingDown = false →
      (((checkStopLoss s).2.isCoolingDown = true) ↔
        s.dailyPnl ≤ -(s.bankroll * s.maxDailyLossPct)) ∧
      (((checkStopLoss s).1 = true) ↔
        s.dailyPnl ≤ -(s.bankroll * s.maxDailyLossPct))) ∧
    ((resetDailyLimits s).isCoolingDown = false ∧
      (resetDailyLimits s).dailyPnl = 0) ∧
    (s.isCoolingDown = true → (runRisk s ops).isCoolingDown = true) := by
  refine ⟨?_, ?_, ⟨rfl, rfl⟩, fun h => runRisk_cooling ops s h⟩
  · intro h
    unfold checkStopLoss
    rw [if_pos h]
  · intro h
    unfold checkStopLoss
    rw [if_neg (by simp [h])]
    constructor <;> constructor <;> intro hc
    · by_contra hnot
      rw [if_neg hnot] at hc
      dsimp only at hc
      rw [h] at hc
      exact Bool.false_ne_true hc
    · rw [if_pos hc]
    · by_contra hnot
      rw [if_neg hnot] at hc
      exact Bool.false_ne_true hc
    · rw [if_pos hc]

/-- C1 witness: a cooling-down state stays cooling down across a
settlement, a sizing call and a stop-loss check. -/
theorem c1_witness :
    (runRisk { isCoolingDown := true }
      [RiskOp.settle "b1" "lost", RiskOp.kelly (1/2) 2,
        RiskOp.checkStop]).isCoolingDown = true :=
  (c1_cooldown_state_machine { isCoolingDown := true }
    [RiskOp.settle "b1" "lost", RiskOp.kelly (1/2) 2,
      RiskOp.checkStop]).2.2.2 rfl

/-! ### Claim C2 — budget veto and nonnegative remaining -/

theorem remaining_of_unconfigured (m : BudgetManager) (p : BudgetPeriod)
    (sport : Option String) (ref : Date) (h : m.budgets p = none) :
    remaining m p sport ref = none := by
  unfold remaining
  rw [h]

theorem remaining_of_configured (m : BudgetManager) (p : BudgetPeriod)
    (b : Budget) (sport : Option String) (ref : Date)
    (h : m.budgets p = some b) : ∃ r, remaining m p sport ref = some r := by
  unfold remaining
  rw [h]
  exact ⟨_, rfl⟩

theorem mem_configuredPeriods (m : BudgetManager) (p : BudgetPeriod) :
    p ∈ configuredPeriods m ↔ (m.budgets p).isSome := by
  unfold configuredPeriods
  rw [List.mem_filter]
  constructor
  · exact fun h => h.2
  · intro h
    exact ⟨by cases p <;> simp, h⟩

/-- C2: can_spend is true when no period budgets are configured, and in
general it is true exactly when the amount is within remaining for every
configured period (one breached period vetoes); remaining is never
negative; and with a daily limit of 50 and one same-day spend of 80,
remaining is 0 and canSpend(1) is false. -/
theorem c2_can_spend_veto (m : BudgetManager) (amount : ℚ)
    (sport : Option String) (ref : Date) :
    ((∀ p, m.budgets p = none) → canSpend m amount sport ref = true) ∧
    (canSpend m amount sport ref = true ↔
      ∀ p r, remaining m p sport ref = some r → amount ≤ r) ∧
    (∀ p r, remaining m p sport ref = some r → 0 ≤ r) ∧
    (∀ m1 m2, addBudget BudgetManager.init .daily 50 [] = .ok m1 →
      recordSpend m1 "BET1" 80 "NBA" "DK" d0 = .ok m2 →
      (remaining m2 .daily none d0 = some 0 ∧ canSpend m2 1 none d0 = false)) := by
  have hnonneg : ∀ p r, remaining m p sport ref = some r → 0 ≤ r := by
    intro p r hrem
    unfold remaining at hrem
    cases hb : m.budgets p with
    | none => rw [hb] at hrem; simp at hrem
    | some b =>
      rw [hb] at hrem
      dsimp only at hrem
      rw [Option.some.injEq] at hrem
      rw [← hrem]
      exact roundTo_nonneg 2 (le_max_left 0 _)
  refine ⟨?_, ?_, hnonneg, ?_⟩
  · intro h
    have hc : configuredPeriods m = [] := by
      unfold configuredPeriods
      rw [List.filter_eq_nil_iff]
      intro p _
      simp [h p]
    unfold canSpend
    rw [if_pos hc]
  · unfold canSpend
    by_cases hc : configuredPeriods m = []
    · rw [if_pos hc]
      simp only [true_iff]
      intro p r hrem
      have hnone : m.budgets p = none := by
        cases hb : m.budgets p with
        | none => rfl
        | some b =>
          have : p ∈ configuredPeriods m :=
            (mem_configuredPeriods m p).mpr (by rw [hb]; rfl)
          rw [hc] at this
          simp at this
      rw [remaining_of_unconfigured m p sport ref hnone] at hrem
      simp at hrem
    · rw [if_neg hc]
      rw [List.all_eq_true]
      constructor
      · intro hall p r hrem
        have hsome : (m.budgets p).isSome := by
          cases hb : m.budgets p with
          | none =>
            rw [remaining_of_unconfigured m p sport ref hb] at hrem
            simp at hrem
          | some b => rfl
        have hp := hall p ((mem_configuredPeriods m p).mpr hsome)
        rw [hrem] at hp
        exact of_decide_eq_true hp
      · intro hfor p _
        cases hrem : remaining m p sport ref with
        | none => rfl
        | some r => exact decide_eq_true (hfor p r hrem)
  · intro m1 m2 h1 h2
    unfold addBudget at h1
    rw [if_neg (by norm_num : ¬((50 : ℚ) ≤ 0)), Except.ok.injEq] at h1
    subst h1
    unfold recordSpend at h2
    rw [if_neg (by norm_num : ¬((80 : ℚ) ≤ 0)), Except.ok.injEq] at h2
    subst h2
    simp only [BudgetManager.init, List.nil_append]
    have hspent : spentInPeriod bmSpent80N BudgetPeriod.daily none d0 = 80 := by
      unfold spentInPeriod bmSpent80N
      norm_num [Budget.periodStart, Budget.periodEnd, sportMatches,
        Date.ble, d0, roundTo, roundHalfEven]
    have hbud : bmSpent80N.budgets BudgetPeriod.daily
        = some { period := BudgetPeriod.daily, limit := 50, sportLimits := [] } :=
      rfl
    have hrem : remaining bmSpent80N BudgetPeriod.daily none d0 = some 0 := by
      unfold remaining
      rw [hbud]
      dsimp only
      rw [hspent]
      norm_num [roundTo, roundHalfEven]
    have hconf : configuredPeriods bmSpent80N = [BudgetPeriod.daily] := rfl
    constructor
    · exact hrem
    · show canSpend bmSpent80N 1 none d0 = false
      unfold canSpend
      rw [hconf,
        if_neg (by decide : ¬([BudgetPeriod.daily] = ([] : List BudgetPeriod))),
        List.all_cons, List.all_nil]
      rw [hrem]
      norm_num

/-- C2 witness: the daily-limit scenario applied at the concrete
managers. -/
theorem c2_witness : canSpend bmSpent80 1 none d0 = false := by
  have h1 : addBudget BudgetManager.init .daily 50 [] = .ok bmDaily50 := by
    norm_num [addBudget, bmDaily50, Except.toOption]
  have h2 : recordSpend bmDaily50 "BET1" 80 "NBA" "DK" d0 = .ok bmSpent80 := by
    norm_num [recordSpend, bmSpent80, Except.toOption]
  exact ((c2_can_spend_veto bmSpent80 1 none d0).2.2.2 bmDaily50 bmSpent80
    h1 h2).2

/-! ### Claim C10 — per-category spend against the global limit -/

/-- C10: when remaining is queried with a category that has no configured
sub-limit, the global period limit is compared against only that category
spend (the spent_in_period call is filtered to the category); as a
consequence, after spends of 80 on NBA and 80 on NFL against a daily
global limit of 100 (total 160, past the limit), canSpend(10, NHL) is
still true — per-category calls can drive total spend past the global
period limit. -/
theorem c10_category_scoped_global_limit (m : BudgetManager)
    (p : BudgetPeriod) (b : Budget) (sport : String) (ref : Date)
    (hb : m.budgets p = some b) (hs : sport ≠ "")
    (hnosub : ∀ kv ∈ b.sportLimits, pyUpper kv.1 ≠ pyUpper sport) :
    (remaining m p (some sport) ref
      = some (roundTo 2 (max 0 (b.limit - spentInPeriod m p (some sport) ref)))) ∧
    (∀ m1 m2 m3,
      addBudget BudgetManager.init .daily 100 [] = .ok m1 →
      recordSpend m1 "B1" 80 "NBA" "DK" d0 = .ok m2 →
      recordSpend m2 "B2" 80 "NFL" "DK" d0 = .ok m3 →
      (spentInPeriod m3 .daily none d0 = 160 ∧
       ¬ spentInPeriod m3 .daily none d0 ≤ 100 ∧
       canSpend m3 10 (some "NHL") d0 = true)) := by
  constructor
  · unfold remaining
    rw [hb]
    dsimp only
    have hfind : b.sportLimits.find? (fun kv => pyUpper kv.1 = pyUpper sport)
        = none := by
      rw [List.find?_eq_none]
      intro kv hkv
      simp [hnosub kv hkv]
    rw [if_pos hs, hfind]
  · intro m1 m2 m3 h1 h2 h3
    unfold addBudget at h1
    rw [if_neg (by norm_num : ¬((100 : ℚ) ≤ 0)), Except.ok.injEq] at h1
    subst h1
    unfold recordSpend at h2
    rw [if_neg (by norm_num : ¬((80 : ℚ) ≤ 0)), Except.ok.injEq] at h2
    subst h2
    unfold recordSpend at h3
    rw [if_neg (by norm_num : ¬((80 : ℚ) ≤ 0)), Except.ok.injEq] at h3
    subst h3
    simp only [BudgetManager.init, List.nil_append, List.cons_append]
    have hspentAll : spentInPeriod bmTwoSportsN BudgetPeriod.daily none d0
        = 160 := by
      unfold spentInPeriod bmTwoSportsN
      norm_num [Budget.periodStart, Budget.periodEnd, sportMatches,
        Date.ble, d0, roundTo, roundHalfEven]
    have hspentNhl : spentInPeriod bmTwoSportsN BudgetPeriod.daily
        (some "NHL") d0 = 0 := by
      unfold spentInPeriod bmTwoSportsN
      have hm1 : sportMatches "NBA" (some "NHL") = false := by decide
      have hm2 : sportMatches "NFL" (some "NHL") = false := by decide
      norm_num [Budget.periodStart, Budget.periodEnd, Date.ble, d0,
        hm1, hm2, roundTo, roundHalfEven]
    have hbud : bmTwoSportsN.budgets BudgetPeriod.daily
        = some { period := BudgetPeriod.daily, limit := 100, sportLimits := [] } :=
      rfl
    have hremNhl : remaining bmTwoSportsN BudgetPeriod.daily (some "NHL") d0
        = some 100 := by
      unfold remaining
      rw [hbud]
      dsimp only
      rw [if_pos (by decide : ("NHL" : String) ≠ "")]
      dsimp only [List.find?]
      rw [hspentNhl]
      norm_num [roundTo, roundHalfEven]
    have hconf : configuredPeriods bmTwoSportsN = [BudgetPeriod.daily] := rfl
    refine ⟨hspentAll, ?_, ?_⟩
    · show ¬ spentInPeriod bmTwoSportsN BudgetPeriod.daily none d0 ≤ 100
      rw [hspentAll]
      norm_num
    · show canSpend bmTwoSportsN 10 (some "NHL") d0 = true
      unfold canSpend
      rw [hconf,
        if_neg (by decide : ¬([BudgetPeriod.daily] = ([] : List BudgetPeriod))),
        List.all_cons, List.all_nil]
      rw [hremNhl]
      norm_num

/-- C10 witness: the two-category scenario applied at the concrete
managers. -/
theorem c10_witness : canSpend bmTwoSports 10 (some "NHL") d0 = true := by
  have h1 : addBudget BudgetManager.init .daily 100 [] = .ok bmDaily100 := by
    norm_num [addBudget, bmDaily100, Except.toOption]
  have h2 : recordSpend bmDaily100 "B1" 80 "NBA" "DK" d0 = .ok bmSpentNba := by
    norm_num [recordSpend, bmSpentNba, Except.toOption]
  have h3 : recordSpend bmSpentNba "B2" 80 "NFL" "DK" d0 = .ok bmTwoSports := by
    norm_num [recordSpend, bmTwoSports, Except.toOption]
  exact ((c10_category_scoped_global_limit bmTwoSports .daily
    { period := .daily, limit := 100, sportLimits := [] } "NHL" d0
    (by norm_num [bmTwoSports, bmSpentNba, bmDaily100, recordSpend, addBudget,
      BudgetManager.init, Except.toOption])
    (by decide) (by intro kv hkv; simp at hkv)).2 bmDaily100 bmSpentNba
    bmTwoSports h1 h2 h3).2.2

end SportsSteve
